import Mathlib

/-!
Formal model of the grid/record engine of the HBL + OWI-pressure to
OWI-NWS13 converter (`hbl2wind_owi_pressure`).  Python floats are modelled
as exact rationals, Python lists and numpy arrays as Lean lists, and every
operation that can raise an exception returns `Option` or `Except`.
-/

/-- Python slice s[a:b] of a character list (start inclusive, stop exclusive,
clamped to the sequence like Python slices). -/
def pySlice (s : List Char) (a b : Nat) : List Char := (s.take b).drop a

/-- Python / numpy sequence indexing l[i]: nonnegative indices count from the
front, negative indices count from the end, anything out of range is an
IndexError (`none`). -/
def pyIndex (l : List α) (i : Int) : Option α :=
  if 0 ≤ i then l.get? i.toNat
  else if i + l.length < 0 then none
  else l.get? (i + l.length).toNat

/-- Round to the nearest integer, ties to the even integer: the Python
built-in `round` with one argument. -/
def roundHalfEven (x : ℚ) : Int :=
  if x - ⌊x⌋ < 1/2 then ⌊x⌋
  else if 1/2 < x - ⌊x⌋ then ⌊x⌋ + 1
  else if ⌊x⌋ % 2 = 0 then ⌊x⌋ else ⌊x⌋ + 1

/-- Python round(x, 2): round to two decimal places, ties to even. -/
def pyRound2 (x : ℚ) : ℚ := (roundHalfEven (x * 100) : ℚ) / 100

/-- Python min over a sequence.  The empty case raises in Python; it is
unreachable at every call site here (the axes have at least two points), so
the default value returned for `[]` is never observed. -/
def pyMinD : List ℚ → ℚ
  | [] => 0
  | x :: xs => xs.foldl min x

/-- Python max over a sequence; the empty case is unreachable as for
`pyMinD`. -/
def pyMaxD : List ℚ → ℚ
  | [] => 0
  | x :: xs => xs.foldl max x

/-- The state stored by WindGrid.__init__: point counts, steps rounded to two
decimals, bounding corners (longitudes after the shift normalisation), the
meshgrid arrays and both 1-D axes. -/
structure WindGrid where
  n_longitude : Nat
  n_latitude : Nat
  d_longitude : ℚ
  d_latitude : ℚ
  xll : ℚ
  yll : ℚ
  xur : ℚ
  yur : ℚ
  lon : List (List ℚ)
  lat : List (List ℚ)
  lon1d : List ℚ
  lat1d : List ℚ
deriving DecidableEq

/-- WindGrid.__init__(lon, lat).  Python raises IndexError at `lon[1]` or
`lat[1]` when an axis has fewer than two points (modelled as `none`); no other
validation exists.  `numpy.where(lon > 180, lon - 360, lon)` is the only
longitude normalisation, applied after the steps are taken from the raw axis.
`numpy.meshgrid(lon, lat)` repeats the longitude axis once per latitude row
and each latitude value across its row. -/
def WindGrid.init (lon lat : List ℚ) : Option WindGrid :=
  match lon, lat with
  | l0 :: l1 :: _, t0 :: t1 :: _ =>
    let lonN := lon.map (fun x => if 180 < x then x - 360 else x)
    some
      { n_longitude := lon.length
        n_latitude := lat.length
        d_longitude := pyRound2 (l1 - l0)
        d_latitude := pyRound2 (t1 - t0)
        xll := pyMinD lonN
        yll := pyMinD lat
        xur := pyMaxD lonN
        yur := pyMaxD lat
        lon := List.replicate lat.length lonN
        lat := lat.map (fun y => List.replicate lon.length y)
        lon1d := lonN
        lat1d := lat }
  | _, _ => none

/-- numpy.arange(start, stop, step) in exact arithmetic: the
ceil((stop - start)/step) points start + k*step.  (numpy rejects step = 0;
no claim touches that case.) -/
def npArange (start stop step : ℚ) : List ℚ :=
  (List.range (⌈(stop - start) / step⌉).toNat).map (fun k : Nat => start + k * step)

/-- WindGrid.__generate_equidistant_grid_from_grid. -/
def WindGrid.generate_equidistant_grid_from_grid (g : WindGrid) : Option WindGrid :=
  WindGrid.init (npArange g.xll g.xur g.d_longitude) (npArange g.yll g.yur g.d_latitude)

/-- WindGrid.__generate_equidistant_grid_from_corners. -/
def WindGrid.generate_equidistant_grid_from_corners (x1 y1 x2 y2 dx dy : ℚ) :
    Option WindGrid :=
  WindGrid.init (npArange x1 x2 dx) (npArange y1 y2 dy)

/-- Python truthiness of an optional float: None and 0.0 are both falsy. -/
def pyTruthy : Option ℚ → Bool
  | none => false
  | some x => if x = 0 then false else true

/-- The exceptions the modelled paths can raise. -/
inductive PyExc where
  | runtimeError (msg : String)
  | indexError
deriving DecidableEq

/-- WindGrid.generate_equidistant_grid: `if grid:` (an object is always
truthy), then `if xll and yll and xur and yur and dx and dy:` — numeric
truthiness, so an argument equal to 0 is treated exactly like a missing one —
else `raise RuntimeError("No valid function call provided")`. -/
def WindGrid.generate_equidistant_grid (grid : Option WindGrid)
    (xll yll xur yur dx dy : Option ℚ) : Except PyExc WindGrid :=
  match grid with
  | some g =>
    match WindGrid.generate_equidistant_grid_from_grid g with
    | some w => .ok w
    | none => .error .indexError
  | none =>
    if pyTruthy xll && pyTruthy yll && pyTruthy xur && pyTruthy yur
        && pyTruthy dx && pyTruthy dy then
      match WindGrid.generate_equidistant_grid_from_corners (xll.getD 0) (yll.getD 0)
          (xur.getD 0) (yur.getD 0) (dx.getD 0) (dy.getD 0) with
      | some w => .ok w
      | none => .error .indexError
    else .error (.runtimeError "No valid function call provided")

/-- The per-timestep bundle produced by OwiAscii.get and consumed by
OwiNetcdf.append.  The date is modelled by the total seconds of
`wind_data.date() - base_date` (the timedelta's days*86400 + seconds). -/
structure WindData where
  date_seconds : Int
  pressure : List (List ℚ)
  u_velocity : List (List ℚ)
  v_velocity : List (List ℚ)
deriving DecidableEq

/-- netCDF4.default_fillvals for an i4 variable. -/
def i4_fill : Int := -2147483647

/-- netCDF4.default_fillvals for an f4 variable (9.969209968386869e+36). -/
def f4_fill : ℚ := 9969209968386869 * 10 ^ 21

/-- A fill-valued 2-D slice of an f4 record variable. -/
def f4_fill_field (nlat nlon : Nat) : List (List ℚ) :=
  List.replicate nlat (List.replicate nlon f4_fill)

/-- The record variables of the output container (bounds-free path): the
unlimited `time` dimension starts at length 0 and the lon/lat variables,
written once at open time, play no part in appending. -/
structure OwiNetcdfState where
  n_latitude : Nat
  n_longitude : Nat
  time_var : List Int
  psfc : List (List (List ℚ))
  u10 : List (List (List ℚ))
  v10 : List (List (List ℚ))
deriving DecidableEq

/-- A freshly created container: every record variable is empty. -/
def OwiNetcdf.create (nlat nlon : Nat) : OwiNetcdfState :=
  ⟨nlat, nlon, [], [], [], []⟩

/-- The netCDF4 assignment var[idx] = v along the unlimited dimension: an
existing slot is overwritten, otherwise the variable grows to length idx+1
with any gap filled by the variable's fill value.  No index is rejected. -/
def ncSetItem (arr : List α) (fill : α) (idx : Nat) (v : α) : List α :=
  if idx < arr.length then arr.set idx v
  else arr ++ List.replicate (idx - arr.length) fill ++ [v]

/-- OwiNetcdf.append(idx, wind_data) on a container created without bounds
(the bounds branch only re-interpolates the three fields before the same
writes): minutes = round(total_seconds / 60), then plain assignments
time[idx], PSFC[idx,:,:], U10[idx,:,:], V10[idx,:,:].  The source contains
no check relating idx to the number of prior appends. -/
def OwiNetcdf.append (st : OwiNetcdfState) (idx : Nat) (wd : WindData) :
    OwiNetcdfState :=
  { st with
    time_var := ncSetItem st.time_var i4_fill idx
      (roundHalfEven ((wd.date_seconds : ℚ) / 60))
    psfc := ncSetItem st.psfc (f4_fill_field st.n_latitude st.n_longitude) idx wd.pressure
    u10 := ncSetItem st.u10 (f4_fill_field st.n_latitude st.n_longitude) idx wd.u_velocity
    v10 := ncSetItem st.v10 (f4_fill_field st.n_latitude st.n_longitude) idx wd.v_velocity }

/-- Length of the unlimited time dimension: the longest record variable. -/
def OwiNetcdf.timeDimLength (st : OwiNetcdfState) : Nat :=
  max (max st.time_var.length st.psfc.length) (max st.u10.length st.v10.length)

/-- OwiAscii.__get_pre_idx_header_row:
`1 + ceil(num_lats * num_lons / 8) * idx + idx`.  For a nonnegative integer n
below 2^53 (far beyond any grid), math.ceil of the float quotient n / 8
equals the exact ceiling, which in natural arithmetic is (n + 7) / 8. -/
def OwiAscii.get_pre_idx_header_row (num_lats num_lons idx : Nat) : Nat :=
  1 + (num_lats * num_lons + 7) / 8 * idx + idx

/-- The j-th fixed 10-character field of a data line
(columns 10*j .. 10*j + 9). -/
def field10 (line : List Char) (j : Nat) : List Char :=
  pySlice line (10 * j) (10 * j + 10)

/-- One iteration of the pressure loop in OwiAscii.get for flat index i:
`float(lines[header_row + 1 + i // 8][1 + 10*(i % 8) : 10 + 10*(i % 8)])`,
with Python's float() abstracted as the parameter pyfloat.  A missing line is
an IndexError (`none`). -/
def prmslEntry (pyfloat : List Char → Option ℚ) (lines : List (List Char))
    (header_row i : Nat) : Option ℚ :=
  match lines.get? (header_row + 1 + i / 8) with
  | none => none
  | some line => pyfloat (pySlice line (1 + 10 * (i % 8)) (10 + 10 * (i % 8)))

/-- Option-valued traversal: the source loop aborts at the first raised
exception, so the whole read fails if any element fails. -/
def optTraverse (f : Nat → Option α) : List Nat → Option (List α)
  | [] => some []
  | i :: is => (f i).bind (fun v => (optTraverse f is).map (fun vs => v :: vs))

/-- The prmsl matrix built by OwiAscii.get: the source loop runs i over
range(num_lats * num_lons) and assigns prmsl[i // num_lons][i % num_lons], so
entry (r, c) is written exactly once, from flat index r * num_lons + c. -/
def OwiAscii.get_prmsl (pyfloat : List Char → Option ℚ) (lines : List (List Char))
    (num_lats num_lons idx : Nat) : Option (List (List ℚ)) :=
  optTraverse
    (fun r => optTraverse
      (fun c => prmslEntry pyfloat lines
        (OwiAscii.get_pre_idx_header_row num_lats num_lons idx) (r * num_lons + c))
      (List.range num_lons))
    (List.range num_lats)

/-- `hbl_idx = (self.__idx - 384) * 15` in OwiAscii.get. -/
def OwiAscii.hbl_idx (idx : Int) : Int := (idx - 384) * 15

/-- The u (or v) time slice OwiAscii.get reads from the wind source:
`f_u.variables["u10"][:][:][hbl_idx]`, numpy indexing along the time axis
(negative indices silently count from the end). -/
def OwiAscii.windSample (series : List (List (List ℚ))) (idx : Int) :
    Option (List (List ℚ)) :=
  pyIndex series (OwiAscii.hbl_idx idx)

theorem ncSetItem_length (arr : List α) (fill : α) (idx : Nat) (v : α) :
    (ncSetItem arr fill idx v).length = max arr.length (idx + 1) := by
  unfold ncSetItem
  split
  · simp only [List.length_set]
    omega
  · simp only [List.length_append, List.length_replicate, List.length_cons,
      List.length_nil]
    omega

theorem ceil_div_eight (n : Nat) : ⌈(n : ℚ) / 8⌉ = (((n + 7) / 8 : Nat) : Int) := by
  have h1 : ((n + 7) / 8) * 8 ≤ n + 7 := Nat.div_mul_le_self _ _
  have h2 : n ≤ ((n + 7) / 8) * 8 := by omega
  refine le_antisymm ?_ ?_
  · rw [Int.ceil_le, div_le_iff (by norm_num : (0:ℚ) < 8)]
    exact_mod_cast h2
  · have h3 : (((n + 7) / 8 : Nat) : Int) - 1 < ⌈(n : ℚ) / 8⌉ := by
      rw [Int.lt_ceil, lt_div_iff (by norm_num : (0:ℚ) < 8)]
      have key : ((((n + 7) / 8 : Nat) : Int) - 1) * 8 < (n : Int) := by omega
      exact_mod_cast key
    omega

theorem foldl_min_eq_or_mem (l : List ℚ) (x : ℚ) :
    l.foldl min x = x ∨ l.foldl min x ∈ l := by
  induction l generalizing x with
  | nil => exact Or.inl rfl
  | cons a as ih =>
    rcases ih (min x a) with h | h
    · rcases min_choice x a with h2 | h2
      · exact Or.inl (by rw [List.foldl_cons, h, h2])
      · exact Or.inr (by rw [List.foldl_cons, h, h2]; exact List.mem_cons_self a as)
    · exact Or.inr (List.mem_cons_of_mem a h)

theorem foldl_max_eq_or_mem (l : List ℚ) (x : ℚ) :
    l.foldl max x = x ∨ l.foldl max x ∈ l := by
  induction l generalizing x with
  | nil => exact Or.inl rfl
  | cons a as ih =>
    rcases ih (max x a) with h | h
    · rcases max_choice x a with h2 | h2
      · exact Or.inl (by rw [List.foldl_cons, h, h2])
      · exact Or.inr (by rw [List.foldl_cons, h, h2]; exact List.mem_cons_self a as)
    · exact Or.inr (List.mem_cons_of_mem a h)

theorem optTraverse_length (f : Nat → Option α) (l : List Nat) (vs : List α)
    (h : optTraverse f l = some vs) : vs.length = l.length := by
  induction l generalizing vs with
  | nil =>
    simp only [optTraverse] at h
    simp [← Option.some.inj h]
  | cons i is ih =>
    simp only [optTraverse] at h
    cases hfi : f i with
    | none => rw [hfi] at h; simp at h
    | some v =>
      rw [hfi] at h
      cases hrec : optTraverse f is with
      | none => rw [hrec] at h; simp at h
      | some ws =>
        rw [hrec] at h
        simp at h
        subst h
        simp [ih ws hrec]

theorem optTraverse_get? (f : Nat → Option α) (l : List Nat) (vs : List α)
    (h : optTraverse f l = some vs) (j : Nat) : vs.get? j = (l.get? j).bind f := by
  induction l generalizing vs j with
  | nil =>
    simp only [optTraverse] at h
    simp [← Option.some.inj h]
  | cons i is ih =>
    simp only [optTraverse] at h
    cases hfi : f i with
    | none => rw [hfi] at h; simp at h
    | some v =>
      rw [hfi] at h
      cases hrec : optTraverse f is with
      | none => rw [hrec] at h; simp at h
      | some ws =>
        rw [hrec] at h
        simp at h
        subst h
        cases j with
        | zero => simp [hfi]
        | succ j => simpa using ih ws hrec j

theorem optTraverse_none (f : Nat → Option α) (l : List Nat) (i : Nat)
    (hi : i ∈ l) (hf : f i = none) : optTraverse f l = none := by
  induction l with
  | nil => cases hi
  | cons a as ih =>
    rcases List.mem_cons.mp hi with rfl | h
    · simp [optTraverse, hf]
    · cases hfa : f a with
      | none => simp [optTraverse, hfa]
      | some v => simp [optTraverse, hfa, ih h]

/-- Claim C2: the 0-based line number of record i's header equals
1 + i * (ceil(n_lat*n_lon/8) + 1); for a 10x10 grid (13 data lines per
record), index 0 gives line 1 and index 1 gives line 15.  The middle conjunct
identifies the natural-number (n + 7) / 8 used in the model with the exact
ceiling of n / 8. -/
theorem locate_header_spec (nlat nlon i : Nat) :
    OwiAscii.get_pre_idx_header_row nlat nlon i =
      1 + i * ((nlat * nlon + 7) / 8 + 1) ∧
    (((nlat * nlon + 7) / 8 : Nat) : Int) = ⌈((nlat * nlon : Nat) : ℚ) / 8⌉ ∧
    OwiAscii.get_pre_idx_header_row 10 10 0 = 1 ∧
    OwiAscii.get_pre_idx_header_row 10 10 1 = 15 := by
  refine ⟨?_, (ceil_div_eight (nlat * nlon)).symm, by decide, by decide⟩
  unfold OwiAscii.get_pre_idx_header_row
  ring

/-- Claim C4 counterexample: the longitude axis [0, 1, 0] is strictly
monotonic in neither direction, yet WindGrid construction succeeds — the
source performs no monotonicity check and no InvalidGridError exists, so the
claimed "fails iff degenerate or non-monotonic" is false. -/
theorem grid_validation_counterexample :
    (WindGrid.init [(0:ℚ), 1, 0] [(5:ℚ), 6]).isSome = true ∧
    ¬ List.Pairwise (fun a b => a < b) [(0:ℚ), 1, 0] ∧
    ¬ List.Pairwise (fun a b => b < a) [(0:ℚ), 1, 0] := by
  refine ⟨rfl, by decide, by decide⟩

/-- Claim C4 amended: WindGrid construction fails (Python IndexError at
lon[1] / lat[1]) exactly when an axis has fewer than 2 points; monotonicity
is never checked, so all other axes — monotonic or not — are accepted. -/
theorem grid_init_fails_iff_short_axis (lon lat : List ℚ) :
    (WindGrid.init lon lat).isSome ↔ 2 ≤ lon.length ∧ 2 ≤ lat.length := by
  rcases lon with _ | ⟨a, _ | ⟨b, l⟩⟩ <;> rcases lat with _ | ⟨c, _ | ⟨d, t⟩⟩ <;>
    simp [WindGrid.init]

/-- Claim C6: the wind-source sample index used by OwiAscii.get is
(t - 384) * 15; global index 384 reads wind sample 0 and global index 385
reads wind sample 15. -/
theorem time_mapping_spec (series : List (List (List ℚ))) (t : Int) :
    OwiAscii.windSample series t = pyIndex series ((t - 384) * 15) ∧
    OwiAscii.windSample series 384 = series.get? 0 ∧
    OwiAscii.windSample series 385 = series.get? 15 := by
  refine ⟨rfl, ?_, ?_⟩ <;>
    norm_num [OwiAscii.windSample, OwiAscii.hbl_idx, pyIndex] <;> try rfl

/-- Claim C9: with grid=None and any of the six numeric parameters equal to
0, generate_equidistant_grid raises RuntimeError("No valid function call
provided") instead of building the grid, because parameter presence is tested
by numeric truthiness (`if xll and yll and ...`). -/
theorem corner_zero_raises (xll yll xur yur dx dy : Option ℚ)
    (h : xll = some 0 ∨ yll = some 0 ∨ xur = some 0 ∨ yur = some 0 ∨
      dx = some 0 ∨ dy = some 0) :
    WindGrid.generate_equidistant_grid none xll yll xur yur dx dy =
      .error (.runtimeError "No valid function call provided") := by
  have h0 : pyTruthy (some 0) = false := by simp [pyTruthy]
  unfold WindGrid.generate_equidistant_grid
  rcases h with rfl | rfl | rfl | rfl | rfl | rfl <;> simp [h0]

theorem corner_zero_raises_witness :
    WindGrid.generate_equidistant_grid none (some 0) (some 1) (some 1) (some 1)
      (some 1) (some 1) =
      .error (.runtimeError "No valid function call provided") :=
  corner_zero_raises (some 0) (some 1) (some 1) (some 1) (some 1) (some 1)
    (Or.inl rfl)

/-- A concrete snapshot for the C3 counterexample. -/
def wd_demo : WindData := ⟨0, [[1]], [[2]], [[3]]⟩

/-- Claim C3 counterexample: the source OwiNetcdf.append contains no
sequencing check and no SequencingError exists.  Appending at index 1 on a
fresh container (zero prior appends) does not raise: it writes normally,
leaving a fill-valued gap at index 0 and a time dimension of length 2. -/
theorem append_out_of_order_counterexample :
    (OwiNetcdf.append (OwiNetcdf.create 1 1) 1 wd_demo).time_var =
      [i4_fill, roundHalfEven ((wd_demo.date_seconds : ℚ) / 60)] ∧
    roundHalfEven ((wd_demo.date_seconds : ℚ) / 60) = 0 ∧
    (OwiNetcdf.append (OwiNetcdf.create 1 1) 1 wd_demo).psfc =
      [f4_fill_field 1 1, [[1]]] ∧
    OwiNetcdf.timeDimLength (OwiNetcdf.append (OwiNetcdf.create 1 1) 1 wd_demo) = 2 := by
  refine ⟨rfl, ?_, rfl, rfl⟩
  have hc : ((wd_demo.date_seconds : ℚ)) / 60 = 0 := by norm_num [wd_demo]
  simp only [roundHalfEven, hc, Int.floor_zero]
  norm_num

/-- Claim C3 amended: append performs no sequencing validation — every index
is accepted, and writing at index idx grows the time dimension to
max(previous length, idx + 1) with gaps fill-valued; appending indices 0,
then 1, then 2 succeeds and yields a time dimension of length 3. -/
theorem append_no_sequencing_check (st : OwiNetcdfState) (idx : Nat)
    (wd : WindData) (nlat nlon : Nat) (wd0 wd1 wd2 : WindData) :
    OwiNetcdf.timeDimLength (OwiNetcdf.append st idx wd) =
      max (OwiNetcdf.timeDimLength st) (idx + 1) ∧
    OwiNetcdf.timeDimLength
      (OwiNetcdf.append (OwiNetcdf.append (OwiNetcdf.append
        (OwiNetcdf.create nlat nlon) 0 wd0) 1 wd1) 2 wd2) = 3 := by
  have hlen : ∀ (s : OwiNetcdfState) (i : Nat) (w : WindData),
      OwiNetcdf.timeDimLength (OwiNetcdf.append s i w) =
        max (OwiNetcdf.timeDimLength s) (i + 1) := by
    intro s i w
    simp only [OwiNetcdf.timeDimLength, OwiNetcdf.append, ncSetItem_length]
    omega
  refine ⟨hlen st idx wd, ?_⟩
  rw [hlen, hlen, hlen]
  simp only [OwiNetcdf.timeDimLength, OwiNetcdf.create, List.length_nil]
  omega

/-- Claim C7 counterexample: with longitude axis [0, 0.016] the first
successive difference is 0.016 = 2/125, but the stored step is
round(0.016, 2) = 0.02 = 1/50, so the step does not equal the difference. -/
theorem grid_roundtrip_counterexample :
    (WindGrid.init [(0:ℚ), 2/125] [(0:ℚ), 1]).map WindGrid.d_longitude =
      some (1/50) ∧ ((1:ℚ)/50) ≠ 2/125 - 0 := by
  constructor
  · show some (pyRound2 (2/125 - 0)) = some (1/50)
    have h1 : ((2:ℚ)/125 - 0) * 100 = 8/5 := by norm_num
    have hf : ⌊(8/5 : ℚ)⌋ = 1 := by norm_num
    have h2 : roundHalfEven (8/5) = 2 := by
      simp only [roundHalfEven, hf]
      rw [if_neg (by norm_num), if_pos (by norm_num)]
      norm_num
    simp only [pyRound2, h1, h2, Option.some.injEq]
    norm_num
  · norm_num

/-- Claim C7 amended: construction round-trips the point counts exactly, and
the derived steps equal the first successive axis difference rounded to two
decimal places (Python round(x, 2), ties to even) — not the raw difference. -/
theorem grid_roundtrip_rounded (lon lat : List ℚ) (g : WindGrid)
    (hg : WindGrid.init lon lat = some g) :
    g.n_longitude = lon.length ∧ g.n_latitude = lat.length ∧
    g.d_longitude = pyRound2 (lon.getD 1 0 - lon.getD 0 0) ∧
    g.d_latitude = pyRound2 (lat.getD 1 0 - lat.getD 0 0) := by
  rcases lon with _ | ⟨a, _ | ⟨b, l⟩⟩ <;> rcases lat with _ | ⟨c, _ | ⟨d, t⟩⟩ <;>
    simp only [WindGrid.init] at hg
  all_goals first
  | exact Option.noConfusion hg
  | (cases Option.some.inj hg; exact ⟨rfl, rfl, rfl, rfl⟩)

/-- Placeholder used only to name concrete grids via getD; never observed
(the construction it defaults is always `some`). -/
def emptyWindGrid : WindGrid := ⟨0, 0, 0, 0, 0, 0, 0, 0, [], [], [], []⟩

/-- The concrete grid for the C7 witness. -/
def c7grid : WindGrid :=
  (WindGrid.init [(0:ℚ), 1, 2] [(10:ℚ), 21/2]).getD emptyWindGrid

theorem grid_roundtrip_rounded_witness :
    c7grid.n_longitude = [(0:ℚ), 1, 2].length ∧
    c7grid.n_latitude = [(10:ℚ), 21/2].length ∧
    c7grid.d_longitude = pyRound2 ([(0:ℚ), 1, 2].getD 1 0 - [(0:ℚ), 1, 2].getD 0 0) ∧
    c7grid.d_latitude = pyRound2 ([(10:ℚ), 21/2].getD 1 0 - [(10:ℚ), 21/2].getD 0 0) :=
  grid_roundtrip_rounded [(0:ℚ), 1, 2] [(10:ℚ), 21/2] c7grid rfl

/-- Claim C5 counterexample: an input longitude of exactly 180 is not shifted
(`numpy.where(lon > 180, ...)` only moves values strictly above 180), so the
stored 1-D axis and the upper corner xur both contain 180, which lies outside
the claimed half-open interval [-180, 180). -/
theorem lon_normalization_counterexample :
    (WindGrid.init [(179:ℚ), 180] [(0:ℚ), 1]).map WindGrid.lon1d =
      some [179, 180] ∧
    (WindGrid.init [(179:ℚ), 180] [(0:ℚ), 1]).map WindGrid.xur = some 180 ∧
    ¬ ((180:ℚ) < 180) := by
  refine ⟨?_, ?_, by norm_num⟩
  · show some ([(179:ℚ), 180].map (fun x => if 180 < x then x - 360 else x)) =
      some [179, 180]
    rw [List.map_cons, List.map_cons, List.map_nil,
      if_neg (by norm_num), if_neg (by norm_num)]
  · show some (pyMaxD ([(179:ℚ), 180].map (fun x => if 180 < x then x - 360 else x))) =
      some 180
    rw [List.map_cons, List.map_cons, List.map_nil,
      if_neg (by norm_num), if_neg (by norm_num)]
    show some ([(180:ℚ)].foldl max 179) = some 180
    rw [List.foldl_cons, List.foldl_nil, max_eq_right (by norm_num : (179:ℚ) ≤ 180)]

/-- Bounds for the single-shift longitude normalisation. -/
theorem normalize_bounds (x : ℚ) (h1 : -180 ≤ x) (h2 : x ≤ 540) :
    -180 ≤ (if 180 < x then x - 360 else x) ∧
      (if 180 < x then x - 360 else x) ≤ 180 := by
  split_ifs <;> constructor <;> linarith

/-- Python min of a nonempty sequence lies within any bounds shared by all
its elements. -/
theorem pyMinD_bound (x : ℚ) (xs : List ℚ) (lo hi : ℚ)
    (h : ∀ cc ∈ x :: xs, lo ≤ cc ∧ cc ≤ hi) :
    lo ≤ pyMinD (x :: xs) ∧ pyMinD (x :: xs) ≤ hi := by
  have he : pyMinD (x :: xs) = x ∨ pyMinD (x :: xs) ∈ xs := foldl_min_eq_or_mem xs x
  rcases he with he | he
  · rw [he]
    exact h x (List.mem_cons_self x xs)
  · exact h _ (List.mem_cons_of_mem x he)

/-- Python max of a nonempty sequence lies within any bounds shared by all
its elements. -/
theorem pyMaxD_bound (x : ℚ) (xs : List ℚ) (lo hi : ℚ)
    (h : ∀ cc ∈ x :: xs, lo ≤ cc ∧ cc ≤ hi) :
    lo ≤ pyMaxD (x :: xs) ∧ pyMaxD (x :: xs) ≤ hi := by
  have he : pyMaxD (x :: xs) = x ∨ pyMaxD (x :: xs) ∈ xs := foldl_max_eq_or_mem xs x
  rcases he with he | he
  · rw [he]
    exact h x (List.mem_cons_self x xs)
  · exact h _ (List.mem_cons_of_mem x he)

/-- Claim C5 amended: provided every input longitude lies in [-180, 540],
every stored longitude — the 1-D axis, every mesh entry, and the corners
xll/xur — lies in the closed interval [-180, 180]; 180 itself is attainable
(inputs of exactly 180 are kept and inputs above 180 are shifted by exactly
360), so the interval is closed, not the claimed half-open one. -/
theorem lon_normalization_range (lon lat : List ℚ) (g : WindGrid)
    (hb : ∀ x ∈ lon, -180 ≤ x ∧ x ≤ 540)
    (hg : WindGrid.init lon lat = some g) :
    (∀ cc ∈ g.lon1d, -180 ≤ cc ∧ cc ≤ 180) ∧
    (∀ row ∈ g.lon, ∀ cc ∈ row, -180 ≤ cc ∧ cc ≤ 180) ∧
    (-180 ≤ g.xll ∧ g.xll ≤ 180) ∧ (-180 ≤ g.xur ∧ g.xur ≤ 180) := by
  rcases lon with _ | ⟨a, _ | ⟨b, l⟩⟩ <;> rcases lat with _ | ⟨c, _ | ⟨d, t⟩⟩ <;>
    simp only [WindGrid.init] at hg
  all_goals try exact Option.noConfusion hg
  cases Option.some.inj hg
  have hall : ∀ cc ∈ (a :: b :: l).map (fun x => if 180 < x then x - 360 else x),
      -180 ≤ cc ∧ cc ≤ 180 := by
    intro cc hcc
    obtain ⟨x, hx, rfl⟩ := List.mem_map.mp hcc
    exact normalize_bounds x (hb x hx).1 (hb x hx).2
  rw [List.map_cons] at hall
  refine ⟨by rw [List.map_cons]; exact hall, ?_, ?_, ?_⟩
  · intro row hrow
    have hr := List.eq_of_mem_replicate hrow
    rw [hr, List.map_cons]
    exact hall
  · exact pyMinD_bound _ _ _ _ hall
  · exact pyMaxD_bound _ _ _ _ hall

/-- The concrete grid for the C5 witness: inputs -180, 300, 540 normalise to
-180, -60, 180. -/
def c5grid : WindGrid :=
  (WindGrid.init [(-180:ℚ), 300, 540] [(0:ℚ), 1]).getD emptyWindGrid

theorem lon_normalization_range_witness :
    (-180 ≤ c5grid.xll ∧ c5grid.xll ≤ 180) ∧
    (-180 ≤ c5grid.xur ∧ c5grid.xur ≤ 180) :=
  (lon_normalization_range [(-180:ℚ), 300, 540] [(0:ℚ), 1] c5grid
    (by intro x hx; fin_cases hx <;> norm_num) rfl).2.2

/-- Claim C8: both equidistant-grid constructors generate their axes with
numpy.arange, whose points are the k*step offsets from the lower corner that
remain strictly below the upper corner (half-open range); the upper corner
itself is never a generated point. -/
theorem equidistant_grid_half_open (g : WindGrid) (x1 y1 x2 y2 dx dy : ℚ)
    (hdx : 0 < dx) :
    (∀ cc ∈ npArange x1 x2 dx, x1 ≤ cc ∧ cc < x2 ∧ ∃ k : Nat, cc = x1 + k * dx) ∧
    x2 ∉ npArange x1 x2 dx ∧
    WindGrid.generate_equidistant_grid_from_corners x1 y1 x2 y2 dx dy =
      WindGrid.init (npArange x1 x2 dx) (npArange y1 y2 dy) ∧
    WindGrid.generate_equidistant_grid_from_grid g =
      WindGrid.init (npArange g.xll g.xur g.d_longitude)
        (npArange g.yll g.yur g.d_latitude) := by
  have main : ∀ cc ∈ npArange x1 x2 dx,
      x1 ≤ cc ∧ cc < x2 ∧ ∃ k : Nat, cc = x1 + k * dx := by
    intro cc hcc
    simp only [npArange, List.mem_map, List.mem_range] at hcc
    obtain ⟨k, hk2, rfl⟩ := hcc
    have hk3 : (k : Int) < ⌈(x2 - x1) / dx⌉ := by omega
    have hk4 : (k : ℚ) < (x2 - x1) / dx := by exact_mod_cast Int.lt_ceil.mp hk3
    have hk5 : (k : ℚ) * dx < x2 - x1 := (lt_div_iff hdx).mp hk4
    have hk6 : 0 ≤ (k : ℚ) * dx := mul_nonneg (Nat.cast_nonneg k) hdx.le
    exact ⟨by linarith, by linarith, ⟨k, rfl⟩⟩
  refine ⟨main, ?_, rfl, rfl⟩
  intro hmem
  exact absurd (main x2 hmem).2.1 (lt_irrefl x2)

/-- The concrete grid for the C8 witness. -/
def c8grid : WindGrid :=
  (WindGrid.init [(0:ℚ), 1] [(0:ℚ), 1]).getD emptyWindGrid

theorem equidistant_grid_half_open_witness :
    ((1:ℚ) ∉ npArange 0 1 (3/10)) ∧
    WindGrid.generate_equidistant_grid_from_corners 0 0 1 1 (3/10) (1/2) =
      WindGrid.init (npArange 0 1 (3/10)) (npArange 0 1 (1/2)) ∧
    WindGrid.generate_equidistant_grid_from_grid c8grid =
      WindGrid.init (npArange c8grid.xll c8grid.xur c8grid.d_longitude)
        (npArange c8grid.yll c8grid.yur c8grid.d_latitude) :=
  (equidistant_grid_half_open c8grid 0 0 1 1 (3/10) (1/2) (by norm_num)).2

/-- Claim C10 counterexample: the claim's unconditional "the reader does not
fail" is false.  For t = 383 (< 384) and a wind series holding a single time
slice, the computed index -15 is out of range even counting from the end, and
numpy raises IndexError (`none`): the read fails instead of returning a
snapshot. -/
theorem negative_wind_index_counterexample :
    (383 : Int) < 384 ∧
    OwiAscii.hbl_idx 383 < 0 ∧
    OwiAscii.windSample [[[(0:ℚ)]]] 383 = none := by
  refine ⟨by norm_num, by decide, by decide⟩

/-- Claim C10 amended: for every requested global index t below the 384
offset the computed wind index (t - 384) * 15 is negative, and the reader
applies no bounds or sign guard: when the wind series is long enough to
absorb the negative index ((384 - t) * 15 ≤ length, which on the real
3250-slice series means t ≥ 168, covering the whole iterated range), numpy
negative indexing silently returns the slice counted from the end of the
series; when the index's magnitude exceeds the series length the read
instead fails with IndexError. -/
theorem negative_wind_index_wraps (series : List (List (List ℚ))) (t : Int)
    (ht : t < 384) :
    OwiAscii.hbl_idx t < 0 ∧
    ((384 - t) * 15 ≤ (series.length : Int) →
      OwiAscii.windSample series t =
        series.get? (series.length - ((384 - t) * 15).toNat) ∧
      (OwiAscii.windSample series t).isSome) ∧
    ((series.length : Int) < (384 - t) * 15 →
      OwiAscii.windSample series t = none) := by
  have hneg : OwiAscii.hbl_idx t < 0 := by
    unfold OwiAscii.hbl_idx
    omega
  have hneg2 : (t - 384) * 15 < 0 := hneg
  refine ⟨hneg, fun hlen => ⟨?_, ?_⟩, fun hshort => ?_⟩
  · show pyIndex series ((t - 384) * 15) =
      series.get? (series.length - ((384 - t) * 15).toNat)
    unfold pyIndex
    rw [if_neg (by omega), if_neg (by omega)]
    congr 1
    omega
  · show (pyIndex series ((t - 384) * 15)).isSome
    unfold pyIndex
    rw [if_neg (by omega), if_neg (by omega)]
    have hlt : ((t - 384) * 15 + (series.length : Int)).toNat < series.length := by
      omega
    cases hs : series.get? (((t - 384) * 15 + (series.length : Int)).toNat) with
    | none =>
      exfalso
      have h9 := List.get?_eq_none.mp hs
      omega
    | some v => rfl
  · show pyIndex series ((t - 384) * 15) = none
    unfold pyIndex
    rw [if_neg (by omega), if_pos (by omega)]

/-- The concrete wind series for the C10 witness wrap case: 15 time slices. -/
def c10series : List (List (List ℚ)) := List.replicate 15 [[0]]

/-- The concrete wind series for the C10 witness failure case: one slice. -/
def c10short : List (List (List ℚ)) := [[[1]]]

theorem negative_wind_index_wraps_witness :
    OwiAscii.hbl_idx 383 < 0 ∧
    (OwiAscii.windSample c10series 383 =
      c10series.get? (c10series.length - ((((384:Int)) - 383) * 15).toNat) ∧
      (OwiAscii.windSample c10series 383).isSome) ∧
    OwiAscii.windSample c10short 383 = none :=
  ⟨(negative_wind_index_wraps c10series 383 (by norm_num)).1,
   (negative_wind_index_wraps c10series 383 (by norm_num)).2.1
     (by norm_num [c10series]),
   (negative_wind_index_wraps c10short 383 (by norm_num)).2.2
     (by norm_num [c10short])⟩

/-- The slice the source reads for flat index i — characters
1 + 10*(i % 8) .. 9 + 10*(i % 8) of the data line — is exactly the trailing
nine characters of the (i % 8)-th fixed 10-character field of that line. -/
theorem pySlice_field10 (line : List Char) (m : Nat) :
    pySlice line (1 + 10 * m) (10 + 10 * m) = (field10 line m).drop 1 := by
  simp only [pySlice, field10, List.drop_drop]
  rw [show 10 * m + 1 = 1 + 10 * m from by omega,
    show 10 * m + 10 = 10 + 10 * m from by omega]

/-- Claim C1: a successful pressure-field read yields exactly n_lat rows of
n_lon values each (n_lat * n_lon values in all); value number k sits at row
k / n_lon, column k % n_lon, and is decoded from the (k % 8)-th fixed
10-character field of data line k / 8 after the record's header line (the
parser feeds float() the trailing nine characters of that field); and if the
file holds fewer data lines than the record requires, the read fails — the
IndexError the spec names TruncatedRecordError. -/
theorem read_record_field_spec (pyfloat : List Char → Option ℚ)
    (lines : List (List Char)) (nlat nlon i : Nat) :
    (∀ m, OwiAscii.get_prmsl pyfloat lines nlat nlon i = some m →
      m.length = nlat ∧ (∀ row ∈ m, row.length = nlon) ∧
      ∀ k, k < nlat * nlon →
        (m.get? (k / nlon)).bind (fun row => row.get? (k % nlon)) =
          (lines.get? (OwiAscii.get_pre_idx_header_row nlat nlon i + 1 + k / 8)).bind
            (fun line => pyfloat ((field10 line (k % 8)).drop 1))) ∧
    (1 ≤ nlat → 1 ≤ nlon →
      lines.length ≤ OwiAscii.get_pre_idx_header_row nlat nlon i +
        (nlat * nlon + 7) / 8 →
      OwiAscii.get_prmsl pyfloat lines nlat nlon i = none) := by
  constructor
  · intro m hm
    unfold OwiAscii.get_prmsl at hm
    have hmlen : m.length = nlat := by
      have := optTraverse_length _ _ _ hm
      simpa using this
    refine ⟨hmlen, ?_, ?_⟩
    · intro row hrow
      obtain ⟨j, hj⟩ := List.mem_iff_get?.mp hrow
      have hget := optTraverse_get? _ _ _ hm j
      rw [hj] at hget
      by_cases hjlt : j < nlat
      · rw [List.get?_range hjlt] at hget
        have hrowF : optTraverse
            (fun c => prmslEntry pyfloat lines
              (OwiAscii.get_pre_idx_header_row nlat nlon i) (j * nlon + c))
            (List.range nlon) = some row := hget.symm
        have := optTraverse_length _ _ _ hrowF
        simpa using this
      · exfalso
        rw [List.get?_eq_none.mpr (by simpa using Nat.le_of_not_lt hjlt)] at hget
        simp at hget
    · intro k hk
      have hnlon : 0 < nlon := by
        rcases Nat.eq_zero_or_pos nlon with h0 | h0
        · rw [h0, Nat.mul_zero] at hk
          omega
        · exact h0
      have hr : k / nlon < nlat := (Nat.div_lt_iff_lt_mul hnlon).mpr hk
      have hget := optTraverse_get? _ _ _ hm (k / nlon)
      rw [List.get?_range hr] at hget
      have hget2 : m.get? (k / nlon) =
          optTraverse (fun c => prmslEntry pyfloat lines
            (OwiAscii.get_pre_idx_header_row nlat nlon i) (k / nlon * nlon + c))
            (List.range nlon) := hget
      cases hrowF : optTraverse (fun c => prmslEntry pyfloat lines
          (OwiAscii.get_pre_idx_header_row nlat nlon i) (k / nlon * nlon + c))
          (List.range nlon) with
      | none =>
        exfalso
        rw [hrowF] at hget2
        have := List.get?_eq_none.mp hget2
        omega
      | some rowr =>
        rw [hrowF] at hget2
        have hcell := optTraverse_get? _ _ _ hrowF (k % nlon)
        rw [List.get?_range (Nat.mod_lt k hnlon)] at hcell
        have hkey : k / nlon * nlon + k % nlon = k := by
          rw [Nat.mul_comm]
          exact Nat.div_add_mod k nlon
        have hcell2 : rowr.get? (k % nlon) =
            prmslEntry pyfloat lines
              (OwiAscii.get_pre_idx_header_row nlat nlon i)
              (k / nlon * nlon + k % nlon) := hcell
        rw [hkey] at hcell2
        rw [hget2]
        show rowr.get? (k % nlon) = _
        rw [hcell2]
        unfold prmslEntry
        cases hline : lines.get?
            (OwiAscii.get_pre_idx_header_row nlat nlon i + 1 + k / 8) with
        | none => rfl
        | some line =>
          show pyfloat (pySlice line (1 + 10 * (k % 8)) (10 + 10 * (k % 8))) =
            pyfloat (List.drop 1 (field10 line (k % 8)))
          rw [pySlice_field10]
  · intro h1 h2 hlen
    have hn : 0 < nlat * nlon := Nat.mul_pos h1 h2
    unfold OwiAscii.get_prmsl
    apply optTraverse_none _ _ (nlat - 1) (List.mem_range.mpr (by omega))
    show optTraverse (fun c => prmslEntry pyfloat lines
      (OwiAscii.get_pre_idx_header_row nlat nlon i) ((nlat - 1) * nlon + c))
      (List.range nlon) = none
    apply optTraverse_none _ _ (nlon - 1) (List.mem_range.mpr (by omega))
    show prmslEntry pyfloat lines (OwiAscii.get_pre_idx_header_row nlat nlon i)
      ((nlat - 1) * nlon + (nlon - 1)) = none
    have hflat : (nlat - 1) * nlon + (nlon - 1) = nlat * nlon - 1 := by
      rcases nlat with _ | a
      · omega
      rcases nlon with _ | b
      · omega
      rw [Nat.succ_sub_one, Nat.succ_sub_one, Nat.succ_mul]
      omega
    rw [hflat]
    unfold prmslEntry
    have hbound : lines.length ≤
        OwiAscii.get_pre_idx_header_row nlat nlon i + 1 + (nlat * nlon - 1) / 8 := by
      omega
    rw [List.get?_eq_none.mpr hbound]

/-- The float() abstraction used by the C1 witness: decode a character list
as its length. -/
def pyfloat_len : List Char → Option ℚ := fun s => some ((s.length : ℚ))

/-- Concrete pressure file for the C1 witness: metadata line, record-0 header
line, one 25-character data line (grid 1 x 2, so ceil(2/8) = 1 data line). -/
def c1lines : List (List Char) := [[], [], List.replicate 25 'x']

/-- The matrix the C1 witness read produces. -/
def c1matrix : List (List ℚ) :=
  (OwiAscii.get_prmsl pyfloat_len c1lines 1 2 0).getD []

theorem read_record_field_spec_witness :
    OwiAscii.get_prmsl pyfloat_len c1lines 1 2 0 = some c1matrix ∧
    c1matrix.length = 1 ∧
    OwiAscii.get_prmsl pyfloat_len [[], []] 1 2 0 = none :=
  ⟨rfl,
   ((read_record_field_spec pyfloat_len c1lines 1 2 0).1 c1matrix rfl).1,
   (read_record_field_spec pyfloat_len [[], []] 1 2 0).2 (by decide) (by decide)
     (by decide)⟩
